import Mathlib

/-
Verification development for the migration orchestration subsystem of the
mcp-server-neon repository.

Embedded components:
  * `splitSqlStatements` — the statement splitter.  Its implementation file
    (`src/utils.ts`) is absent from the source snapshot (only imports of it
    appear), so it is modelled from the specification, section 4.1.
  * the Migration Registry (`src/state.ts`): an in-memory map with
    `getMigrationFromMemory` and `persistMigrationToMemory` (the snapshot
    defines no removal operation).
  * the orchestrator handlers (`src/tools.ts`): `handleSchemaMigration`
    (tool `prepare_database_migration`) and `handleCommitMigration`
    (tool `complete_database_migration`).  External calls (branch create,
    transactional batch execution, branch delete) are oracles supplied in an
    `Env`; each handler returns its outcome, the resulting registry, and the
    trace of external effects it performed, in order.
  * the tool-invocation boundary (`index.ts`): the `CallToolRequestSchema`
    request handler that catches every handler error and converts it into a
    structured failure result.
-/

/-! ## Statement splitter (spec-modelled) -/

/-- Character code 39, the single-quote delimiter of SQL string literals. -/
def singleQuoteChar : Char := Char.ofNat 39

/-- Character code 34, the double-quote delimiter of SQL quoted identifiers. -/
def doubleQuoteChar : Char := Char.ofNat 34

/-- Characters allowed in the tag of a dollar-quoted block. -/
def isTagChar (c : Char) : Bool := c.isAlphanum || c = '_'

/-- Scanner mode: where in the script the splitter currently is. -/
inductive SplitMode where
  | top
  | singleQuote
  | doubleQuote
  | lineComment
  | blockComment (depth : Nat)
  | dollarQuote (tag : List Char)
deriving Repr, DecidableEq

/-- Strip leading and trailing whitespace from a character list. -/
def trimChars (cs : List Char) : List Char :=
  ((cs.dropWhile Char.isWhitespace).reverse.dropWhile Char.isWhitespace).reverse

/-- Strip leading and trailing whitespace from a string. -/
def trimStr (s : String) : String := String.mk (trimChars s.data)

/-- Finish the current fragment (`acc` holds it reversed) and push it, raw,
onto the output stack; blank fragments are dropped later. -/
def emitFrag (acc : List Char) (out : List String) : List String :=
  String.mk acc.reverse :: out

/-- After an opening `$`, read a dollar-quote tag closed by another `$`;
return the tag and the remaining input. -/
def scanDollarTag (cs : List Char) : Option (List Char × List Char) :=
  match cs.dropWhile isTagChar with
  | '$' :: rest => some (cs.takeWhile isTagChar, rest)
  | _ => none

/-- After a `$` inside a dollar-quoted block with tag `tag`, check whether the
closing delimiter completes here; if so return the input after it. -/
def dropDollarClose (tag : List Char) (cs : List Char) : Option (List Char) :=
  if (tag ++ ['$']).isPrefixOf cs then some (cs.drop (tag.length + 1)) else none

/-- The newline character, which ends a line comment. -/
def chr10 : Char := Char.ofNat 10

/-- Modelled from the spec: core loop of the statement splitter, whose
implementation file (`src/utils.ts`) is missing from the snapshot.  Walks the
script character by character; splits at `;` only in `top` mode, never inside
single/double-quoted literals, dollar-quoted blocks, or line/block comments
(spec section 4.1).  Unterminated quoting fails rather than silently
misgrouping.  `acc` is the current fragment reversed; `out` the finished
fragments reversed.  The fuel argument makes the recursion structural; every
step consumes at least one character, so `length + 1` fuel never runs out. -/
def splitGo : Nat → List Char → SplitMode → List Char → List String →
    Except String (List String)
  | 0, _, _, _, _ => .error "statement splitter fuel exhausted"
  | _ + 1, [], .top, acc, out => .ok (emitFrag acc out).reverse
  | _ + 1, [], .lineComment, acc, out => .ok (emitFrag acc out).reverse
  | _ + 1, [], .singleQuote, _, _ => .error "unterminated quoted string literal"
  | _ + 1, [], .doubleQuote, _, _ => .error "unterminated quoted identifier"
  | _ + 1, [], .blockComment _, _, _ => .error "unterminated block comment"
  | _ + 1, [], .dollarQuote _, _, _ => .error "unterminated dollar-quoted block"
  | fuel + 1, c :: cs, .top, acc, out =>
    if c = ';' then splitGo fuel cs .top [] (emitFrag acc out)
    else if c = singleQuoteChar then splitGo fuel cs .singleQuote (c :: acc) out
    else if c = doubleQuoteChar then splitGo fuel cs .doubleQuote (c :: acc) out
    else if c = '-' then
      match cs with
      | c2 :: cs2 =>
        if c2 = '-' then splitGo fuel cs2 .lineComment (c2 :: c :: acc) out
        else splitGo fuel (c2 :: cs2) .top (c :: acc) out
      | [] => splitGo fuel [] .top (c :: acc) out
    else if c = '/' then
      match cs with
      | c2 :: cs2 =>
        if c2 = '*' then splitGo fuel cs2 (.blockComment 0) (c2 :: c :: acc) out
        else splitGo fuel (c2 :: cs2) .top (c :: acc) out
      | [] => splitGo fuel [] .top (c :: acc) out
    else if c = '$' then
      match scanDollarTag cs with
      | some (tag, rest) =>
        splitGo fuel rest (.dollarQuote tag) ((c :: (tag ++ ['$'])).reverse ++ acc) out
      | none => splitGo fuel cs .top (c :: acc) out
    else splitGo fuel cs .top (c :: acc) out
  | fuel + 1, c :: cs, .singleQuote, acc, out =>
    if c = singleQuoteChar then splitGo fuel cs .top (c :: acc) out
    else splitGo fuel cs .singleQuote (c :: acc) out
  | fuel + 1, c :: cs, .doubleQuote, acc, out =>
    if c = doubleQuoteChar then splitGo fuel cs .top (c :: acc) out
    else splitGo fuel cs .doubleQuote (c :: acc) out
  | fuel + 1, c :: cs, .lineComment, acc, out =>
    if c = chr10 then splitGo fuel cs .top (c :: acc) out
    else splitGo fuel cs .lineComment (c :: acc) out
  | fuel + 1, c :: cs, .blockComment d, acc, out =>
    if c = '*' then
      match cs with
      | c2 :: cs2 =>
        if c2 = '/' then
          match d with
          | 0 => splitGo fuel cs2 .top (c2 :: c :: acc) out
          | d' + 1 => splitGo fuel cs2 (.blockComment d') (c2 :: c :: acc) out
        else splitGo fuel (c2 :: cs2) (.blockComment d) (c :: acc) out
      | [] => splitGo fuel [] (.blockComment d) (c :: acc) out
    else if c = '/' then
      match cs with
      | c2 :: cs2 =>
        if c2 = '*' then splitGo fuel cs2 (.blockComment (d + 1)) (c2 :: c :: acc) out
        else splitGo fuel (c2 :: cs2) (.blockComment d) (c :: acc) out
      | [] => splitGo fuel [] (.blockComment d) (c :: acc) out
    else splitGo fuel cs (.blockComment d) (c :: acc) out
  | fuel + 1, c :: cs, .dollarQuote tag, acc, out =>
    if c = '$' then
      match dropDollarClose tag cs with
      | some rest => splitGo fuel rest .top ((c :: (tag ++ ['$'])).reverse ++ acc) out
      | none => splitGo fuel cs (.dollarQuote tag) (c :: acc) out
    else splitGo fuel cs (.dollarQuote tag) (c :: acc) out

/-- Modelled from the spec: `splitSqlStatements` from the missing
`src/utils.ts`.  Splits a migration script into independently executable
statements at top-level `;` terminators, preserving order; each fragment is
trimmed and empty or whitespace-only fragments are dropped (spec section 4.1);
fails on unterminated quoting. -/
def splitSqlStatements (script : String) : Except String (List String) :=
  match splitGo (script.length + 1) script.toList .top [] [] with
  | .error e => .error e
  | .ok frags => .ok ((frags.map trimStr).filter (fun f => !f.isEmpty))

/-! ## Data model -/

/-- A branch as returned by the provisioning service (`Branch` from the
api-client, restricted to the fields the orchestrator reads).  `parent_id` is
optional in the API; a staging branch records its parent there. -/
structure Branch where
  id : String
  project_id : String
  parent_id : Option String
  name : String
deriving Repr, DecidableEq

/-- The opaque result of a transactional batch execution. -/
structure ExecResult where
  raw : String
deriving Repr, DecidableEq

/-- `MigrationDetails` from `src/state.ts`. -/
structure MigrationDetails where
  migrationSql : String
  appliedBranch : Branch
  databaseName : String
deriving Repr, DecidableEq

abbrev MigrationId := String

/-! ## Migration Registry (`src/state.ts`)

`migrationsState` is a `Map<MigrationId, MigrationDetails>`; we embed it as an
association list where `set` conses and `get` takes the first match, which
gives the same observable get/set behaviour. -/

abbrev Registry := List (MigrationId × MigrationDetails)

/-- `getMigrationFromMemory` from `src/state.ts`: `migrationsState.get`. -/
def getMigrationFromMemory : Registry → MigrationId → Option MigrationDetails
  | [], _ => none
  | (k, v) :: rest, id => if k = id then some v else getMigrationFromMemory rest id

/-- `persistMigrationToMemory` from `src/state.ts`: `migrationsState.set`. -/
def persistMigrationToMemory (st : Registry) (id : MigrationId)
    (d : MigrationDetails) : Registry :=
  (id, d) :: st

/-- The registry mutations available in `src/state.ts`.  The snapshot defines
only insertion; no removal operation exists. -/
inductive RegistryOp where
  | put (id : MigrationId) (d : MigrationDetails)
deriving Repr, DecidableEq

/-- Apply a sequence of registry operations in order. -/
def applyOps (st : Registry) : List RegistryOp → Registry
  | [] => st
  | RegistryOp.put id d :: rest => applyOps (persistMigrationToMemory st id d) rest

/-! ## Orchestrator handlers (`src/tools.ts`) -/

/-- The distinct failure modes of the orchestrator, one per throw site. -/
inductive ToolError where
  | branchCreateFailed (msg : String)
  | malformedSql (msg : String)
  | executionFailed (msg : String)
  | migrationNotFound (id : MigrationId)
  | branchDeleteFailed (msg : String)
  | unknownTool (name : String)
deriving Repr, DecidableEq

/-- The human-readable message of each error, as thrown in the source. -/
def ToolError.message : ToolError → String
  | .branchCreateFailed m => "Failed to create branch: " ++ m
  | .malformedSql m => "Malformed SQL: " ++ m
  | .executionFailed m => m
  | .migrationNotFound id => "Migration not found: " ++ id
  | .branchDeleteFailed m => m
  | .unknownTool name => "Unknown tool: " ++ name

/-- One external call performed by a handler, recorded in order. -/
inductive Effect where
  | createBranchEff (projectId : String)
  | executeBatch (projectId : String) (branchId : Option String)
      (databaseName : String) (statements : List String)
  | deleteBranchEff (projectId : String) (branchId : String)
deriving Repr, DecidableEq

/-- Oracle for the external collaborators during one handler invocation:
what the provisioning service and the SQL execution service return. -/
structure Env where
  createBranchResult : Except String Branch
  execResult : Except String ExecResult
  deleteBranchResult : Except String Unit
  freshId : MigrationId

/-- Return value of `handleSchemaMigration`. -/
structure StageResult where
  branch : Branch
  migrationId : MigrationId
  migrationResult : ExecResult
deriving Repr, DecidableEq

/-- Return value of `handleCommitMigration`. -/
structure CommitResult where
  deletedBranch : Branch
  migrationResult : ExecResult
deriving Repr, DecidableEq

/-- `handleSchemaMigration` from `src/tools.ts` (tool
`prepare_database_migration`): create a branch, split the script, run the
statements as one transaction on the new branch, then persist the migration
under a fresh id.  Returns the outcome, the resulting registry, and the trace
of external effects in order.  No path deletes a branch and no failure path
touches the registry. -/
def handleSchemaMigration (env : Env) (st : Registry)
    (migrationSql databaseName projectId : String) :
    Except ToolError StageResult × Registry × List Effect :=
  match env.createBranchResult with
  | .error e => (.error (.branchCreateFailed e), st, [.createBranchEff projectId])
  | .ok newBranch =>
    match splitSqlStatements migrationSql with
    | .error e => (.error (.malformedSql e), st, [.createBranchEff projectId])
    | .ok stmts =>
      match env.execResult with
      | .error e =>
        (.error (.executionFailed e), st,
          [.createBranchEff projectId,
           .executeBatch projectId (some newBranch.id) databaseName stmts])
      | .ok result =>
        let migrationId := env.freshId
        (.ok { branch := newBranch, migrationId := migrationId,
               migrationResult := result },
         persistMigrationToMemory st migrationId
           { migrationSql := migrationSql, databaseName := databaseName,
             appliedBranch := newBranch },
         [.createBranchEff projectId,
          .executeBatch projectId (some newBranch.id) databaseName stmts])

/-- `handleCommitMigration` from `src/tools.ts` (tool
`complete_database_migration`): look the migration up, re-split the stored
script, run it as one transaction against the recorded parent branch, then
delete the staging branch.  The registry is never modified: the source has no
removal operation, so the entry survives every path, success included. -/
def handleCommitMigration (env : Env) (st : Registry) (migrationId : MigrationId) :
    Except ToolError CommitResult × Registry × List Effect :=
  match getMigrationFromMemory st migrationId with
  | none => (.error (.migrationNotFound migrationId), st, [])
  | some migration =>
    match splitSqlStatements migration.migrationSql with
    | .error e => (.error (.malformedSql e), st, [])
    | .ok stmts =>
      match env.execResult with
      | .error e =>
        (.error (.executionFailed e), st,
          [.executeBatch migration.appliedBranch.project_id
             migration.appliedBranch.parent_id migration.databaseName stmts])
      | .ok result =>
        match env.deleteBranchResult with
        | .error e =>
          (.error (.branchDeleteFailed e), st,
            [.executeBatch migration.appliedBranch.project_id
               migration.appliedBranch.parent_id migration.databaseName stmts,
             .deleteBranchEff migration.appliedBranch.project_id
               migration.appliedBranch.id])
        | .ok _ =>
          (.ok { deletedBranch := migration.appliedBranch,
                 migrationResult := result },
           st,
           [.executeBatch migration.appliedBranch.project_id
              migration.appliedBranch.parent_id migration.databaseName stmts,
            .deleteBranchEff migration.appliedBranch.project_id
              migration.appliedBranch.id])

/-! ## Tool-invocation boundary (`index.ts`) -/

/-- One content item of a tool result. -/
structure TextContent where
  type : String
  text : String
deriving Repr, DecidableEq

/-- A structured tool result as returned over the protocol.  The source wraps
the error shape in a `toolResult` field; what matters here is the content and
the `isError` flag. -/
structure ToolCallResult where
  content : List TextContent
  isError : Bool
deriving Repr, DecidableEq

/-- The registered tool names (`NEON_TOOLS` in `src/tools.ts`). -/
def NEON_TOOL_NAMES : List String :=
  ["__node_version", "list_projects", "create_project", "delete_project",
   "describe_project", "run_sql", "run_sql_transaction",
   "describe_table_schema", "get_database_tables", "create_branch",
   "prepare_database_migration", "complete_database_migration",
   "describe_branch", "delete_branch"]

/-- `isNeonToolName` from `src/utils.ts` usage in `index.ts`:
`name in NEON_HANDLERS`. -/
def isNeonToolName (name : String) : Bool := NEON_TOOL_NAMES.contains name

/-- The `CallToolRequestSchema` request handler from `index.ts`: dispatch to
the named handler inside a try/catch; any thrown error becomes a structured
failure result with a human-readable message and `isError := true`. -/
def handleCallToolRequest (toolName : String)
    (dispatch : String → Except ToolError ToolCallResult) : ToolCallResult :=
  let attempt : Except ToolError ToolCallResult :=
    if isNeonToolName toolName then dispatch toolName
    else .error (.unknownTool toolName)
  match attempt with
  | .ok r => r
  | .error e =>
    { content := [{ type := "text", text := "Error: " ++ e.message }],
      isError := true }

/-! ## Concrete fixtures used by witnesses and counterexamples -/

/-- A staging branch as the provisioning service would return it: child of the
primary branch `br-main`. -/
def stagingBranch : Branch :=
  { id := "br-stage", project_id := "p1", parent_id := some "br-main",
    name := "tmp-branch" }

/-- A successful batch-execution result. -/
def okRes : ExecResult := { raw := "command completed" }

/-- Details of a staged migration over `stagingBranch`. -/
def d1 : MigrationDetails :=
  { migrationSql := "SELECT 1;", databaseName := "neondb",
    appliedBranch := stagingBranch }

/-- A second, distinct migration's details. -/
def d2 : MigrationDetails :=
  { migrationSql := "SELECT 2;", databaseName := "neondb",
    appliedBranch := stagingBranch }

/-- A registry holding the single staged migration `m1`. -/
def st1 : Registry := [("m1", d1)]

/-- An environment where every external call succeeds. -/
def envAllOk : Env :=
  { createBranchResult := .ok stagingBranch, execResult := .ok okRes,
    deleteBranchResult := .ok (), freshId := "m1" }

/-- An environment where the batch execution fails. -/
def envExecFail : Env :=
  { envAllOk with execResult := .error "relation does not exist" }

/-- An environment where the branch deletion fails after everything else
succeeded. -/
def envDeleteFail : Env :=
  { envAllOk with deleteBranchResult := .error "delete rejected" }

/-! ## Helper lemmas -/

/-- A lookup right after an insertion of the same id returns the details. -/
theorem get_persist_same (st : Registry) (id : MigrationId) (d : MigrationDetails) :
    getMigrationFromMemory (persistMigrationToMemory st id d) id = some d := by
  simp [persistMigrationToMemory, getMigrationFromMemory]

/-- An insertion under a different key does not change a lookup. -/
theorem get_persist_ne (st : Registry) (id k : MigrationId) (d : MigrationDetails)
    (h : k ≠ id) :
    getMigrationFromMemory (persistMigrationToMemory st k d) id =
      getMigrationFromMemory st id := by
  simp [persistMigrationToMemory, getMigrationFromMemory, h]

/-- `handleCommitMigration` never modifies the registry on any path: the
source defines no removal operation. -/
theorem commit_registry_invariant (env : Env) (st : Registry) (id : MigrationId) :
    (handleCommitMigration env st id).2.1 = st := by
  unfold handleCommitMigration
  split
  · rfl
  · split
    · rfl
    · split
      · rfl
      · split <;> rfl

/-- Inversion of a successful stage: the branch returned is the one the
provisioning oracle produced, and the registry gained exactly the migration's
details under the fresh id. -/
theorem stage_ok_inv {env : Env} {st : Registry} {sql db pid : String}
    {r : StageResult} {st' : Registry} {tr : List Effect}
    (h : handleSchemaMigration env st sql db pid = (.ok r, st', tr)) :
    env.createBranchResult = .ok r.branch ∧ r.migrationId = env.freshId ∧
    st' = persistMigrationToMemory st r.migrationId
      { migrationSql := sql, databaseName := db, appliedBranch := r.branch } := by
  unfold handleSchemaMigration at h
  rcases hcb : env.createBranchResult with e | nb <;> rw [hcb] at h
  · simp at h
  · rcases hsp : splitSqlStatements sql with e | stmts <;> rw [hsp] at h
    · simp at h
    · rcases hex : env.execResult with e | res <;> rw [hex] at h
      · simp at h
      · simp only [Prod.mk.injEq, Except.ok.injEq] at h
        obtain ⟨hr, hst, -⟩ := h
        subst hr
        exact ⟨rfl, rfl, hst.symm⟩

/-- Every batch-execution effect of a commit targets the project and parent
branch recorded in the registry entry. -/
theorem commit_exec_effect {env : Env} {st : Registry} {id : MigrationId}
    {m : MigrationDetails} {pid : String} {bid : Option String} {db : String}
    {s : List String}
    (hm : getMigrationFromMemory st id = some m)
    (hmem : Effect.executeBatch pid bid db s ∈ (handleCommitMigration env st id).2.2) :
    bid = m.appliedBranch.parent_id ∧ pid = m.appliedBranch.project_id ∧
    db = m.databaseName := by
  unfold handleCommitMigration at hmem
  split at hmem
  next heq => rw [hm] at heq; cases heq
  next mig heq =>
    rw [hm] at heq
    injection heq with heq'
    subst heq'
    split at hmem
    · simp at hmem
    · split at hmem
      · simp only [List.mem_singleton, Effect.executeBatch.injEq] at hmem
        exact ⟨hmem.2.1, hmem.1, hmem.2.2.1⟩
      · split at hmem <;>
        · simp only [List.mem_cons, List.mem_singleton] at hmem
          rcases hmem with hmem | hmem
          · simp only [Effect.executeBatch.injEq] at hmem
            exact ⟨hmem.2.1, hmem.1, hmem.2.2.1⟩
          · exact absurd hmem (by simp)

/-! ## Claim theorems -/

/-- C8: a registry `get(id)` performed after `put(id, d)` and before any
`remove(id)` returns exactly `d`, unchanged.  The source registry
(`src/state.ts`) offers no removal operation at all, so the operations that
may intervene are insertions; as long as none of them touches `id`, the
lookup returns `d`. -/
theorem registry_get_after_put (st : Registry) (id : MigrationId)
    (d : MigrationDetails) (ops : List RegistryOp)
    (hops : ∀ k d', RegistryOp.put k d' ∈ ops → k ≠ id) :
    getMigrationFromMemory (applyOps (persistMigrationToMemory st id d) ops) id =
      some d := by
  suffices hgen : ∀ (ops' : List RegistryOp) (st' : Registry),
      (∀ k d', RegistryOp.put k d' ∈ ops' → k ≠ id) →
      getMigrationFromMemory st' id = some d →
      getMigrationFromMemory (applyOps st' ops') id = some d by
    exact hgen ops _ hops (get_persist_same st id d)
  intro ops'
  induction ops' with
  | nil => intro st' _ hbase; exact hbase
  | cons op rest ih =>
    intro st' hop hbase
    rcases op with ⟨k, dk⟩
    have hk : k ≠ id := hop k dk (List.mem_cons_self _ _)
    refine ih _ (fun k' d' hmem => hop k' d' (List.mem_cons_of_mem _ hmem)) ?_
    rw [get_persist_ne st' id k dk hk]
    exact hbase

/-- Witness for C8 at concrete inputs: after `put("m1", d1)` and an unrelated
`put("m2", d2)`, `get("m1")` still returns `d1`. -/
theorem registry_get_after_put_witness :
    getMigrationFromMemory
      (applyOps (persistMigrationToMemory [] "m1" d1) [RegistryOp.put "m2" d2])
      "m1" = some d1 :=
  registry_get_after_put [] "m1" d1 [RegistryOp.put "m2" d2]
    (by
      intro k d' hmem
      simp only [List.mem_singleton, RegistryOp.put.injEq] at hmem
      rw [hmem.1]
      decide)

/-- C6: committing an id absent from the Migration Registry fails with
`MigrationNotFoundError` (message `Migration not found: id`), leaves the
registry unchanged, and performs no external effect at all — no batch is
executed and no branch is deleted, since the lookup precedes both. -/
theorem commit_missing_id_no_effects (env : Env) (st : Registry)
    (id : MigrationId) (h : getMigrationFromMemory st id = none) :
    handleCommitMigration env st id =
      (.error (.migrationNotFound id), st, []) := by
  simp only [handleCommitMigration, h]

/-- Witness for C6: committing `m-unknown` against the registry holding only
`m1` fails with `MigrationNotFoundError` and performs no effect. -/
theorem commit_missing_id_no_effects_witness :
    handleCommitMigration envAllOk st1 "m-unknown" =
      (.error (.migrationNotFound "m-unknown"), st1, []) :=
  commit_missing_id_no_effects envAllOk st1 "m-unknown" rfl

/-- C7: when the batch execution against the parent branch fails during
commit, the call surfaces the execution error, the registry entry and the
staging branch are untouched (the trace holds no branch deletion), and a
later commit with the same id can still succeed. -/
theorem commit_exec_failure_frame (env : Env) (st : Registry)
    (id : MigrationId) (m : MigrationDetails) (stmts : List String) (e : String)
    (hm : getMigrationFromMemory st id = some m)
    (hsplit : splitSqlStatements m.migrationSql = .ok stmts)
    (hexec : env.execResult = .error e) :
    handleCommitMigration env st id =
      (.error (.executionFailed e), st,
       [.executeBatch m.appliedBranch.project_id m.appliedBranch.parent_id
          m.databaseName stmts])
    ∧ ∀ env' r', env'.execResult = .ok r' → env'.deleteBranchResult = .ok () →
        (handleCommitMigration env' st id).1 =
          .ok { deletedBranch := m.appliedBranch, migrationResult := r' } := by
  constructor
  · simp only [handleCommitMigration, hm, hsplit, hexec]
  · intro env' r' hex' hdel'
    simp only [handleCommitMigration, hm, hsplit, hex', hdel']

/-- Witness for C7: commit of `m1` under a failing execution surfaces the
error and keeps the registry entry; re-running it with a healthy environment
succeeds. -/
theorem commit_exec_failure_frame_witness :
    handleCommitMigration envExecFail st1 "m1" =
      (.error (.executionFailed "relation does not exist"), st1,
       [.executeBatch "p1" (some "br-main") "neondb" ["SELECT 1"]])
    ∧ (handleCommitMigration envAllOk st1 "m1").1 =
        .ok { deletedBranch := stagingBranch, migrationResult := okRes } := by
  have h := commit_exec_failure_frame envExecFail st1 "m1" d1 ["SELECT 1"]
    "relation does not exist" rfl rfl rfl
  exact ⟨h.1, h.2 envAllOk okRes rfl rfl⟩

/-- C3: if the batch execution on the staging branch fails during stage, the
registry is left exactly as it was — in particular any id not registered
before is still unregistered, so the call registered nothing — and the trace
holds no branch deletion: the staging branch is left in place. -/
theorem stage_exec_failure_no_registration (env : Env) (st : Registry)
    (sql db pid : String) (b : Branch) (stmts : List String) (e : String)
    (hb : env.createBranchResult = .ok b)
    (hsplit : splitSqlStatements sql = .ok stmts)
    (hexec : env.execResult = .error e) :
    handleSchemaMigration env st sql db pid =
      (.error (.executionFailed e), st,
       [.createBranchEff pid, .executeBatch pid (some b.id) db stmts])
    ∧ (∀ fid, getMigrationFromMemory st fid = none →
        getMigrationFromMemory (handleSchemaMigration env st sql db pid).2.1 fid =
          none)
    ∧ ∀ p bid, Effect.deleteBranchEff p bid ∉
        (handleSchemaMigration env st sql db pid).2.2 := by
  have hmain : handleSchemaMigration env st sql db pid =
      (.error (.executionFailed e), st,
       [.createBranchEff pid, .executeBatch pid (some b.id) db stmts]) := by
    simp only [handleSchemaMigration, hb, hsplit, hexec]
  refine ⟨hmain, ?_, ?_⟩
  · intro fid hfid
    rw [hmain]
    exact hfid
  · intro p bid
    rw [hmain]
    simp

/-- Witness for C3: staging `SELECT 1;` under a failing batch execution
reports the failure, registers nothing, and deletes no branch. -/
theorem stage_exec_failure_no_registration_witness :
    handleSchemaMigration envExecFail [] "SELECT 1;" "neondb" "p1" =
      (.error (.executionFailed "relation does not exist"), [],
       [.createBranchEff "p1", .executeBatch "p1" (some "br-stage") "neondb"
          ["SELECT 1"]])
    ∧ getMigrationFromMemory
        (handleSchemaMigration envExecFail [] "SELECT 1;" "neondb" "p1").2.1
        "m1" = none := by
  have h := stage_exec_failure_no_registration envExecFail [] "SELECT 1;"
    "neondb" "p1" stagingBranch ["SELECT 1"] "relation does not exist"
    rfl rfl rfl
  exact ⟨h.1, h.2.1 "m1" rfl⟩

/-- Counterexample to C4: staging the malformed script `SELECT /* oops`
(unterminated block comment) with a healthy provisioning service fails with
`MalformedSqlError`, but the trace shows the newly created staging branch is
NOT deleted before returning: the only external effect is the branch
creation itself, so the branch leaks. -/
theorem stage_malformed_leaks_branch_cex :
    handleSchemaMigration envAllOk [] "SELECT /* oops" "neondb" "p1" =
      (.error (.malformedSql "unterminated block comment"), [],
       [.createBranchEff "p1"]) := by
  rfl

/-- C4 (amended): for every script on which splitting fails, stage fails with
`MalformedSqlError` and the registry is unchanged, but the newly created
staging branch is not deleted — `handleSchemaMigration` performs no branch
deletion on any path, so the staging branch leaks on malformed input. -/
theorem stage_malformed_no_cleanup (env : Env) (st : Registry)
    (sql db pid : String) (b : Branch) (e : String)
    (hb : env.createBranchResult = .ok b)
    (hsplit : splitSqlStatements sql = .error e) :
    handleSchemaMigration env st sql db pid =
      (.error (.malformedSql e), st, [.createBranchEff pid]) := by
  simp only [handleSchemaMigration, hb, hsplit]

/-- Witness for C4 (amended) at a concrete malformed script. -/
theorem stage_malformed_no_cleanup_witness :
    handleSchemaMigration envAllOk st1 "SELECT /* oops" "neondb" "p1" =
      (.error (.malformedSql "unterminated block comment"), st1,
       [.createBranchEff "p1"]) :=
  stage_malformed_no_cleanup envAllOk st1 "SELECT /* oops" "neondb" "p1"
    stagingBranch "unterminated block comment" rfl rfl

/-- Counterexample to C1: stage `SELECT 1;` successfully (id `m1`), commit it
successfully — yet the registry still contains `m1` afterwards (the source
has no removal operation), and a second commit of `m1` succeeds again instead
of failing with `MigrationNotFoundError`. -/
theorem commit_twice_cex :
    (handleSchemaMigration envAllOk [] "SELECT 1;" "neondb" "p1").1 =
      .ok { branch := stagingBranch, migrationId := "m1",
            migrationResult := okRes }
    ∧ (handleCommitMigration envAllOk
        (handleSchemaMigration envAllOk [] "SELECT 1;" "neondb" "p1").2.1
        "m1").1 =
      .ok { deletedBranch := stagingBranch, migrationResult := okRes }
    ∧ getMigrationFromMemory
        (handleCommitMigration envAllOk
          (handleSchemaMigration envAllOk [] "SELECT 1;" "neondb" "p1").2.1
          "m1").2.1 "m1" = some d1
    ∧ (handleCommitMigration envAllOk
        (handleCommitMigration envAllOk
          (handleSchemaMigration envAllOk [] "SELECT 1;" "neondb" "p1").2.1
          "m1").2.1 "m1").1 =
      .ok { deletedBranch := stagingBranch, migrationResult := okRes } := by
  refine ⟨rfl, rfl, rfl, rfl⟩

/-- A commit that reports `MigrationNotFoundError` can only have found the
registry without the id: the error is raised at the lookup alone. -/
theorem commit_notFound_inv (env : Env) (st : Registry) (id : MigrationId)
    (hcon : (handleCommitMigration env st id).1 =
      .error (.migrationNotFound id)) :
    getMigrationFromMemory st id = none := by
  unfold handleCommitMigration at hcon
  split at hcon
  next heq => exact heq
  next mig heq =>
    split at hcon
    · simp at hcon
    · split at hcon
      · simp at hcon
      · split at hcon <;> simp at hcon

/-- C1 (amended): a successful commit does not remove the migration from the
registry — the registry after the call is exactly the registry before it —
so a second commit of the same id never fails with `MigrationNotFoundError`:
it finds the same entry and re-runs the migration. -/
theorem commit_ok_registry_unchanged (env : Env) (st : Registry)
    (id : MigrationId) (r : CommitResult)
    (h : (handleCommitMigration env st id).1 = .ok r) :
    (handleCommitMigration env st id).2.1 = st
    ∧ getMigrationFromMemory st id ≠ none
    ∧ ∀ env', (handleCommitMigration env' st id).1 ≠
        .error (.migrationNotFound id) := by
  refine ⟨commit_registry_invariant env st id, ?_, ?_⟩
  · intro hnone
    rw [commit_missing_id_no_effects env st id hnone] at h
    cases h
  · intro env' hcon
    have hnone := commit_notFound_inv env' st id hcon
    rw [commit_missing_id_no_effects env st id hnone] at h
    cases h

/-- Witness for C1 (amended): after the successful commit of `m1`, the
registry is unchanged and a second commit does not report
`MigrationNotFoundError`. -/
theorem commit_ok_registry_unchanged_witness :
    (handleCommitMigration envAllOk st1 "m1").2.1 = st1
    ∧ getMigrationFromMemory st1 "m1" ≠ none
    ∧ (handleCommitMigration envAllOk st1 "m1").1 ≠
        .error (.migrationNotFound "m1") := by
  have h := commit_ok_registry_unchanged envAllOk st1 "m1"
    { deletedBranch := stagingBranch, migrationResult := okRes } rfl
  exact ⟨h.1, h.2.1, h.2.2 envAllOk⟩

/-- C2: a successful stage records the branch returned by the provisioning
service (whose `parent_id` is the primary branch at stage time) in the
registry, and every batch execution a later commit of that id performs
targets exactly that recorded `parent_id` and project.  `handleCommitMigration`
takes no branch argument and never consults the currently primary branch, so
the target cannot be caller-supplied nor drift if the primary branch changes
between stage and commit. -/
theorem commit_targets_stage_time_parent (envS : Env) (st : Registry)
    (sql db pid : String) (r : StageResult) (st' : Registry) (tr : List Effect)
    (envC : Env)
    (hstage : handleSchemaMigration envS st sql db pid = (.ok r, st', tr)) :
    getMigrationFromMemory st' r.migrationId =
      some { migrationSql := sql, databaseName := db, appliedBranch := r.branch }
    ∧ ∀ pid' bid db' s,
        Effect.executeBatch pid' bid db' s ∈
          (handleCommitMigration envC st' r.migrationId).2.2 →
        bid = r.branch.parent_id ∧ pid' = r.branch.project_id := by
  obtain ⟨hcb, hfid, hst'⟩ := stage_ok_inv hstage
  have hlook : getMigrationFromMemory st' r.migrationId =
      some { migrationSql := sql, databaseName := db,
             appliedBranch := r.branch } := by
    rw [hst']
    exact get_persist_same st r.migrationId _
  refine ⟨hlook, ?_⟩
  intro pid' bid db' s hmem
  have hEff := commit_exec_effect hlook hmem
  exact ⟨hEff.1, hEff.2.1⟩

/-- Witness for C2: the staged branch has parent `br-main`; the commit's only
batch execution targets `br-main` (and project `p1`), regardless of what is
primary at commit time. -/
theorem commit_targets_stage_time_parent_witness :
    getMigrationFromMemory st1 "m1" = some d1
    ∧ (some "br-main" = stagingBranch.parent_id
       ∧ "p1" = stagingBranch.project_id) := by
  have h := commit_targets_stage_time_parent envAllOk [] "SELECT 1;" "neondb"
    "p1" { branch := stagingBranch, migrationId := "m1", migrationResult := okRes }
    st1 [.createBranchEff "p1",
         .executeBatch "p1" (some "br-stage") "neondb" ["SELECT 1"]]
    envAllOk rfl
  exact ⟨h.1, h.2 "p1" (some "br-main") "neondb" ["SELECT 1"] (by decide)⟩

/-- C10: within a commit, the batch execution against the recorded parent
branch strictly precedes the staging-branch deletion in the effect trace;
when the deletion fails after a successful execution, the commit reports an
error even though the parent branch has already received the batch, and the
registry entry is still present — the two external effects are not atomic. -/
theorem commit_exec_precedes_delete (env : Env) (st : Registry)
    (id : MigrationId) (m : MigrationDetails) (stmts : List String)
    (r : ExecResult) (e : String)
    (hm : getMigrationFromMemory st id = some m)
    (hsplit : splitSqlStatements m.migrationSql = .ok stmts)
    (hexec : env.execResult = .ok r)
    (hdel : env.deleteBranchResult = .error e) :
    handleCommitMigration env st id =
      (.error (.branchDeleteFailed e), st,
       [.executeBatch m.appliedBranch.project_id m.appliedBranch.parent_id
          m.databaseName stmts,
        .deleteBranchEff m.appliedBranch.project_id m.appliedBranch.id])
    ∧ getMigrationFromMemory (handleCommitMigration env st id).2.1 id =
        some m := by
  have hmain : handleCommitMigration env st id =
      (.error (.branchDeleteFailed e), st,
       [.executeBatch m.appliedBranch.project_id m.appliedBranch.parent_id
          m.databaseName stmts,
        .deleteBranchEff m.appliedBranch.project_id m.appliedBranch.id]) := by
    simp only [handleCommitMigration, hm, hsplit, hexec, hdel]
  refine ⟨hmain, ?_⟩
  rw [hmain]
  exact hm

/-- Witness for C10: a commit of `m1` whose deletion step fails has the batch
execution first and the deletion attempt second in its trace, returns the
deletion error, and leaves the registry entry for `m1` in place. -/
theorem commit_exec_precedes_delete_witness :
    handleCommitMigration envDeleteFail st1 "m1" =
      (.error (.branchDeleteFailed "delete rejected"), st1,
       [.executeBatch "p1" (some "br-main") "neondb" ["SELECT 1"],
        .deleteBranchEff "p1" "br-stage"])
    ∧ getMigrationFromMemory (handleCommitMigration envDeleteFail st1 "m1").2.1
        "m1" = some d1 := by
  have h := commit_exec_precedes_delete envDeleteFail st1 "m1" d1 ["SELECT 1"]
    okRes "delete rejected" rfl rfl rfl rfl
  exact ⟨h.1, h.2⟩

/-- C9: any error a handler raises is caught at the `CallToolRequestSchema`
boundary and converted into a structured failure result whose text carries
the error's human-readable message and whose `isError` flag is set; a call
naming an unregistered tool is likewise caught.  The boundary is a total
function, so no handler error escapes it. -/
theorem boundary_converts_errors (toolName : String)
    (dispatch : String → Except ToolError ToolCallResult) (e : ToolError)
    (hk : isNeonToolName toolName = true)
    (he : dispatch toolName = .error e) :
    handleCallToolRequest toolName dispatch =
      { content := [{ type := "text", text := "Error: " ++ e.message }],
        isError := true }
    ∧ ∀ name d', isNeonToolName name = false →
        handleCallToolRequest name d' =
          { content := [{ type := "text",
                          text := "Error: " ++ ("Unknown tool: " ++ name) }],
            isError := true } := by
  constructor
  · simp [handleCallToolRequest, hk, he]
  · intro name d' hname
    simp [handleCallToolRequest, hname, ToolError.message]

/-- Witness for C9: a failing `run_sql` dispatch is converted into an
`isError` result carrying the message, and an unknown tool name is caught the
same way. -/
theorem boundary_converts_errors_witness :
    handleCallToolRequest "run_sql" (fun _ => .error (.executionFailed "boom")) =
      { content := [{ type := "text", text := "Error: boom" }],
        isError := true }
    ∧ handleCallToolRequest "not_a_tool"
        (fun _ => .ok { content := [], isError := false }) =
      { content := [{ type := "text", text := "Error: Unknown tool: not_a_tool" }],
        isError := true } := by
  have h := boundary_converts_errors "run_sql"
    (fun _ => .error (.executionFailed "boom")) (.executionFailed "boom")
    rfl rfl
  exact ⟨h.1, h.2 "not_a_tool" _ rfl⟩

/-- C5: the splitter splits only at statement terminators outside
single-quoted literals, double-quoted identifiers, dollar-quoted blocks, and
line/block comments — each protected context is exercised by a concrete
script whose embedded `;` is not split — including the claim's own example;
statement order is preserved and empty or whitespace-only fragments are
dropped (no returned fragment is empty, on any input). -/
theorem splitSqlStatements_protected_contexts :
    splitSqlStatements "INSERT INTO t VALUES ('a;b'); SELECT 1;" =
      .ok ["INSERT INTO t VALUES ('a;b')", "SELECT 1"]
    ∧ splitSqlStatements "SELECT 1 /* ; */; SELECT 2" =
      .ok ["SELECT 1 /* ; */", "SELECT 2"]
    ∧ splitSqlStatements "-- c;omment\nSELECT 1; SELECT \"a;b\";" =
      .ok ["-- c;omment\nSELECT 1", "SELECT \"a;b\""]
    ∧ splitSqlStatements
        "CREATE FUNCTION f() AS $tag$ x; y $tag$ LANGUAGE sql; SELECT 3" =
      .ok ["CREATE FUNCTION f() AS $tag$ x; y $tag$ LANGUAGE sql", "SELECT 3"]
    ∧ splitSqlStatements "  ;  ; SELECT 1;" = .ok ["SELECT 1"]
    ∧ splitSqlStatements "SELECT 1; SELECT 2; SELECT 3" =
      .ok ["SELECT 1", "SELECT 2", "SELECT 3"]
    ∧ ∀ s res, splitSqlStatements s = .ok res → ∀ f ∈ res, f ≠ "" := by
  refine ⟨rfl, rfl, rfl, rfl, rfl, rfl, ?_⟩
  intro s res h f hf
  unfold splitSqlStatements at h
  split at h
  · cases h
  · cases h
    intro hfe
    subst hfe
    have hp := (List.mem_filter.mp hf).2
    exact absurd hp (by decide)

/-- Witness for C5's universally quantified part at a concrete input. -/
theorem splitSqlStatements_protected_contexts_witness :
    splitSqlStatements "SELECT 9" = .ok ["SELECT 9"] ∧ "SELECT 9" ≠ "" :=
  ⟨rfl, splitSqlStatements_protected_contexts.2.2.2.2.2.2 "SELECT 9"
    ["SELECT 9"] rfl "SELECT 9" (by decide)⟩
